import Mathlib

/-!
Verification of the GarminServerLess (GSL) device-descriptor and update
reconciliation engine against its natural-language specification.

The Python sources (GSL/device.py, GSL/update.py, GSL/app.py,
GSL/filesystem.py) are shallowly embedded below.  Pure string manipulation
(`str.split`, `str.join`, `str.replace`, and the two `re.sub` uses) is
modelled on `List Char`; Python `float` values obtained from decimal
version strings are modelled as exact rationals; network requests are
modelled by oracle parameters carrying the result of the request, and a
trace of network events is recorded where a claim depends on whether a
request happens.  Machine integers do not occur (Python integers are
arbitrary precision), so `Int`/`Nat` are used directly.
-/

namespace GSL

set_option maxRecDepth 16384

/-! ### String machinery on `List Char`

Python `str.split(sep)`, `sep.join(parts)`, `str.replace(old, new)`,
substring membership (`in`), and the specific `re.sub` patterns used by
the sources are implemented here on `List Char`.
-/

/-- Substring test: `pat in s` for Python strings. -/
def occursL (pat : List Char) : List Char → Bool
  | [] => pat.isEmpty
  | c :: cs => pat.isPrefixOf (c :: cs) || occursL pat cs

/-- Worker for `splitOnL`.  `acc` holds the chars of the current part,
reversed. Mirrors CPython `str.split(sep)` for a non-empty separator:
non-overlapping occurrences scanned left to right.  `fuel` bounds the
recursion (one unit per scanned character) so that the definition is
structural and evaluates inside the kernel; the wrapper supplies
`s.length`, which is always enough. -/
def splitOnLAuxF (sep : List Char) : Nat → List Char → List Char → List (List Char)
  | 0, s, acc => [acc.reverse ++ s]
  | _ + 1, [], acc => [acc.reverse]
  | fuel + 1, c :: cs, acc =>
    if sep.isPrefixOf (c :: cs) ∧ sep ≠ [] then
      acc.reverse :: splitOnLAuxF sep fuel (List.drop sep.length (c :: cs)) []
    else
      splitOnLAuxF sep fuel cs (c :: acc)

/-- Python `str.split(sep)` on char lists. -/
def splitOnL (sep s : List Char) : List (List Char) :=
  splitOnLAuxF sep s.length s []

/-- Python `sep.join(parts)` on char lists. -/
def joinSepL (sep : List Char) : List (List Char) → List Char
  | [] => []
  | [x] => x
  | x :: y :: ys => x ++ sep ++ joinSepL sep (y :: ys)

/-- Python `str.replace(old, new)` (all occurrences, left to right,
non-overlapping) on char lists, for a non-empty `pat`; fuel as in
`splitOnLAuxF`. -/
def replaceAllLF (pat repl : List Char) : Nat → List Char → List Char
  | 0, s => s
  | _ + 1, [] => []
  | fuel + 1, c :: cs =>
    if pat.isPrefixOf (c :: cs) ∧ pat ≠ [] then
      repl ++ replaceAllLF pat repl fuel (List.drop pat.length (c :: cs))
    else
      c :: replaceAllLF pat repl fuel cs

/-- Python `str.replace(old, new)` on char lists. -/
def replaceAllL (pat repl s : List Char) : List Char :=
  replaceAllLF pat repl s.length s

/-! ### The fixed regular-expression substitutions

The sources use `re.sub` with three fixed patterns:
`<Major>\d+</Major><Minor>\d+</Minor>` and `<Version>\d+</Version>`
(manifest version patching), and the non-greedy `<TAG>.*?</TAG>`
(privacy scrubbing).  The first two are sequences of literals and `\d+`
tokens; since every literal that follows a `\d+` starts with a non-digit,
greedy digit matching needs no backtracking and the scan below is exactly
CPython's leftmost, non-overlapping `re.sub`. -/

/-- One token of a literal/digit-run pattern. -/
inductive PatTok
  | lit : List Char → PatTok
  | digits : PatTok

/-- Try to match a pattern at the head of `s`; on success return the
remainder of `s` after the match. -/
def tryMatchPat : List PatTok → List Char → Option (List Char)
  | [], s => some s
  | PatTok.lit l :: ps, s =>
    if l.isPrefixOf s then tryMatchPat ps (List.drop l.length s) else none
  | PatTok.digits :: ps, s =>
    if (s.takeWhile Char.isDigit).isEmpty then none
    else tryMatchPat ps (s.dropWhile Char.isDigit)

/-- `re.sub` for a literal/digit-run pattern: scan left to right, replace
each match by `repl`, continue after the match.  The guard
`rest.length ≤ cs.length` always holds for the patterns used by the
sources (they begin with a non-empty literal); fuel as in
`splitOnLAuxF`. -/
def reSubPatF (pat : List PatTok) (repl : List Char) : Nat → List Char → List Char
  | 0, s => s
  | _ + 1, [] => []
  | fuel + 1, c :: cs =>
    match tryMatchPat pat (c :: cs) with
    | some rest =>
      if rest.length ≤ cs.length then repl ++ reSubPatF pat repl fuel rest
      else c :: reSubPatF pat repl fuel cs
    | none => c :: reSubPatF pat repl fuel cs

/-- `re.sub(pat, repl, s)` for a literal/digit-run pattern. -/
def reSubPat (pat : List PatTok) (repl s : List Char) : List Char :=
  reSubPatF pat repl s.length s

/-- `noMatchAt pat a rest = true` states that no match of `pat` starts at
any position inside `a` when `a` is followed by `rest`. -/
def noMatchAt (pat : List PatTok) : List Char → List Char → Bool
  | [], _ => true
  | c :: cs, rest =>
    (tryMatchPat pat (c :: (cs ++ rest))).isNone && noMatchAt pat cs rest

/-! ### The non-greedy tag substitution of the privacy scrub

`re.sub(r"<TAG>.*?</TAG>", repl, xml)` with Python's default flags: `.`
does NOT match a newline, and `.*?` is lazy, so a match is an opening
tag followed by the shortest newline-free run ending in the closing
tag. -/

/-- Scan for the closing tag: succeed at the first occurrence of
`close`, fail on a newline or the end of the string.  Returns the
remainder after the closing tag. -/
def findCloseNL (close : List Char) : List Char → Option (List Char)
  | [] => none
  | c :: cs =>
    if close.isPrefixOf (c :: cs) ∧ close ≠ [] then
      some (List.drop close.length (c :: cs))
    else if c = '\n' then none
    else findCloseNL close cs

/-- `re.sub(r"<open>.*?</close>", repl, s)` with default flags, on char
lists; fuel as in `splitOnLAuxF`. -/
def reSubNGF (openT closeT repl : List Char) : Nat → List Char → List Char
  | 0, s => s
  | _ + 1, [] => []
  | fuel + 1, c :: cs =>
    if openT.isPrefixOf (c :: cs) then
      match findCloseNL closeT (List.drop openT.length (c :: cs)) with
      | some rest => repl ++ reSubNGF openT closeT repl fuel rest
      | none => c :: reSubNGF openT closeT repl fuel cs
    else c :: reSubNGF openT closeT repl fuel cs

/-- `re.sub(r"<open>.*?</close>", repl, s)` on char lists. -/
def reSubNG (openT closeT repl s : List Char) : List Char :=
  reSubNGF openT closeT repl s.length s

/-! ### Version arithmetic of the firmware reconciler

`device.py` computes, for a candidate with decimal version string `v`:
`update_major = int(float(v))` and
`update_minor = int(float(v) * 100) % 100`.
The Python float of a decimal string is modelled as the exact rational
value of the string; Python `int(x)` truncates toward zero, and `x % 100`
on integers returns a value in `[0, 100)`, which is `Int.emod`. -/

/-- Python `int(x)` on a rational: truncation toward zero. -/
def pyInt (q : ℚ) : Int := if 0 ≤ q then ⌊q⌋ else -⌊-q⌋

/-- `update_major = int(float(v))` (device.py line 265). -/
def updateMajor (v : ℚ) : Int := pyInt v

/-- `update_minor = int(float(v) * 100) % 100` (device.py line 266). -/
def updateMinor (v : ℚ) : Int := pyInt (v * 100) % 100

/-- Numeric value of a list of decimal digit characters. -/
def digitsToNat (l : List Char) : Nat :=
  l.foldl (fun acc c => 10 * acc + (c.toNat - 48)) 0

/-- Exact rational value of a plain decimal string such as `"2.157"`
(the shape of the catalog's `SoftwareVersion` field; signs and exponents,
which `float` would also accept, do not occur there and are not
modelled). -/
def parseDecimal (s : String) : Option ℚ :=
  match s.data.splitOn '.' with
  | [ip] =>
    if ip ≠ [] ∧ ip.all Char.isDigit then some (digitsToNat ip) else none
  | [ip, fp] =>
    if (ip ≠ [] ∨ fp ≠ []) ∧ ip.all Char.isDigit ∧ fp.all Char.isDigit then
      some ((digitsToNat ip : ℚ) + (digitsToNat fp : ℚ) / (10 ^ fp.length : ℚ))
    else none
  | _ => none

/-! ### Enumerations (update.py, app.py, filesystem.py) -/

/-- `Update.Type` (update.py). -/
inductive UpdateType
  | PrimaryFirmware | Firmware | Map | Garage | Computer | LanguagePack
  | ConnectItem | Application | SafetyCamera | MarineChart | GeneralDlc
deriving DecidableEq, Repr

/-- `Update.Type.get` (update.py): string to variant; an unknown string
raises, modelled as `none`. -/
def updateTypeGet (s : String) : Option UpdateType :=
  if s = "PrimaryFirmware" then some UpdateType.PrimaryFirmware
  else if s = "Firmware" then some UpdateType.Firmware
  else if s = "Map" then some UpdateType.Map
  else if s = "Garage" then some UpdateType.Garage
  else if s = "Computer" then some UpdateType.Computer
  else if s = "LanguagePack" then some UpdateType.LanguagePack
  else if s = "ConnectItem" then some UpdateType.ConnectItem
  else if s = "Application" then some UpdateType.Application
  else if s = "SafetyCamera" then some UpdateType.SafetyCamera
  else if s = "MarineChart" then some UpdateType.MarineChart
  else if s = "GeneralDlc" then some UpdateType.GeneralDlc
  else none

/-- `App.Type` (app.py). -/
inductive AppType
  | Unknown | WatchFace | WatchApp | Widget | DataField | MusicApp | Activity
deriving DecidableEq, Repr

/-- `App.Type.get` (app.py lines 35-63): string to variant; an unknown
string raises, modelled as `none`. -/
def appTypeGet (s : String) : Option AppType :=
  if s = "unknown" then some AppType.Unknown
  else if s = "watchface" then some AppType.WatchFace
  else if s = "watchapp" then some AppType.WatchApp
  else if s = "widget" then some AppType.Widget
  else if s = "datafield" then some AppType.DataField
  else if s = "musicapp" then some AppType.MusicApp
  else if s = "activity" then some AppType.Activity
  else none

/-- The `AppType` string emitted by `App.parse_xml` (app.py lines
209-223); the wildcard arm emits `"unknown"`. -/
def appTypeXmlStr : AppType → String
  | AppType.WatchFace => "watchface"
  | AppType.WatchApp => "watchapp"
  | AppType.Widget => "widget"
  | AppType.DataField => "datafield"
  | AppType.MusicApp => "audio-content-provider-app"
  | AppType.Activity => "activity"
  | AppType.Unknown => "unknown"

/-- `App.Type.get_datatype_key` (app.py lines 65-91): raises
`NotImplementedError` for `MusicApp`, `Activity` and `Unknown`, modelled
as `none`. -/
def getDatatypeKey : AppType → Option String
  | AppType.WatchFace => some "IQWatchFaces"
  | AppType.WatchApp => some "IQWatchApps"
  | AppType.Widget => some "IQWidgets"
  | AppType.DataField => some "IQDataFields"
  | AppType.MusicApp => none
  | AppType.Activity => none
  | AppType.Unknown => none

/-- `App._settings_datatype_key` (app.py line 20). -/
def settingsDatatypeKey : String := "IQAppsSettingsFile"

/-- `Datatype.TransfertDirection` (filesystem.py). -/
inductive TransfertDirection
  | InputToUnit | OutputFromUnit | InputOutput
deriving DecidableEq, Repr

/-- `Datatype.File` (filesystem.py): the fields the claims depend on. -/
structure DFile where
  path : String
  transfertDirection : Option TransfertDirection
  extension : Option String
deriving DecidableEq, Repr

/-- `Datatype` (filesystem.py). -/
structure Datatype where
  name : String
  files : List DFile
deriving DecidableEq, Repr

/-- `App` (app.py): the fields the claims depend on.  `guid` is the
store id (`ciq_guid`). -/
structure App where
  guid : String
  versionInt : Int
  name : String
  filename : String
  type : AppType
  hasSettings : Bool
deriving DecidableEq, Repr

/-- `App.parse_xml` (app.py line 225): the manifest fragment of an app,
as a char list. -/
def appParseXml (a : App) : List Char :=
  ("<App><AppName>" ++ a.name ++ "</AppName><StoreId>" ++ a.guid ++
   "</StoreId><AppId></AppId><AppType>" ++ appTypeXmlStr a.type ++
   "</AppType><Version>" ++ toString a.versionInt ++ "</Version><FileName>" ++
   a.filename ++ "</FileName></App>").data

/-- `FirmwareUpdate` (update.py): the constructor-kept fields that
`Device.get_firmwares_updates` fills in. -/
structure FirmwareUpdate where
  urlIsRelative : Bool
  url : String
  unitFilepath : String
  name : String
  md5 : String
  size : Nat
  partNumber : String
  major : Int
  minor : Int
  updateType : UpdateType
  installationOrder : Int
deriving DecidableEq, Repr

/-- `AppUpdate` (update.py): the fields the claims depend on. -/
structure AppUpdate where
  appGuid : String
  unitFilepath : String
  name : String
  size : Option Nat
  versionInt : Int
deriving DecidableEq, Repr

/-- `os.path.join` for the two-component joins the sources perform (all
operands are relative or POSIX-style absolute paths without a second
absolute component). -/
def joinPath (a b : String) : String := a ++ "/" ++ b

/-! ### The firmware reconciler (`Device.get_firmwares_updates`,
device.py lines 260-308)

A catalog candidate is one entry of the response's
`SoftwareUpdateOptions` array.  Its `SoftwareVersion` decimal string is
modelled as its exact rational value. `self.firmware_versions` is the
manifest's part-number → (major, minor) dictionary, modelled as an
association list (`in`/`[]` become `List.lookup`). -/

/-- One entry of the catalog response. -/
structure FwCandidate where
  softwareVersion : ℚ
  partNumber : String
  urlIsRelative : Bool
  url : String
  md5 : String
  size : Nat
  unitFilepathRaw : String
  displayName : String
  dataType : String
  installationOrder : Int
deriving DecidableEq, Repr

/-- The condition of device.py lines 267-276: the part number is absent
from the installed map, or the candidate's (major, minor) is
lexicographically greater than the installed pair. -/
def pendingB (fv : List (String × Int × Int)) (c : FwCandidate) : Bool :=
  match List.lookup c.partNumber fv with
  | none => true
  | some (instMajor, instMinor) =>
    decide (instMajor < updateMajor c.softwareVersion) ||
      (decide (updateMajor c.softwareVersion = instMajor) &&
        decide (instMinor < updateMinor c.softwareVersion))

/-- The `FirmwareUpdate` record built at device.py lines 278-300, given
the successfully parsed `Update.Type` of the candidate.
`FilePathOnUnit.replace('\\', '/')` is the character map on the path. -/
def mkFirmwareUpdate (c : FwCandidate) (t : UpdateType) : FirmwareUpdate :=
  { urlIsRelative := c.urlIsRelative
    url := c.url
    unitFilepath := c.unitFilepathRaw.map (fun ch => if ch = '\\' then '/' else ch)
    name := c.displayName
    md5 := c.md5
    size := c.size
    partNumber := c.partNumber
    major := updateMajor c.softwareVersion
    minor := updateMinor c.softwareVersion
    updateType := t
    installationOrder := c.installationOrder }

/-- One iteration of the candidate loop (device.py lines 261-303): the
pending check, then the construction of the `FirmwareUpdate`.
`Update.Type.get` raises on an unknown `DataType` string and
`FirmwareUpdate.__init__` raises when the type is neither
`PrimaryFirmware` nor `Firmware`; both exceptions are caught by the
surrounding `try`, which skips the candidate (`none`). -/
def candidateToUpdate (fv : List (String × Int × Int)) (c : FwCandidate) :
    Option FirmwareUpdate :=
  if pendingB fv c then
    match updateTypeGet c.dataType with
    | some t =>
      if t = UpdateType.PrimaryFirmware ∨ t = UpdateType.Firmware then
        some (mkFirmwareUpdate c t)
      else none
    | none => none
  else none

/-- The sort key of device.py line 306. -/
def fwLe (a b : FirmwareUpdate) : Prop :=
  a.installationOrder ≤ b.installationOrder

instance : DecidableRel fwLe := fun a b => Int.decLe _ _

instance : IsTotal FirmwareUpdate fwLe := ⟨fun a b => Int.le_total _ _⟩

instance : IsTrans FirmwareUpdate fwLe := ⟨fun _ _ _ => Int.le_trans⟩

/-- `Device.get_firmwares_updates` on an already-parsed catalog response:
filter/construct, then sort ascending by installation order (Python's
stable `list.sort(key=...)`, modelled by insertion sort). -/
def getFirmwaresUpdates (fv : List (String × Int × Int))
    (cands : List FwCandidate) : List FirmwareUpdate :=
  List.insertionSort fwLe (cands.filterMap (candidateToUpdate fv))

/-! ### Manifest patching (`__update_xml`, device.py lines 482-490 and
566-574)

The manifest string is split on a fragment separator (`<UpdateFile>` for
firmware, `<App>` for apps); the unique fragment containing the matching
part-number (resp. store-id) tag is rewritten with `re.sub`, and the
fragments are rejoined with the separator. -/

/-- The firmware fragment separator (device.py line 483). -/
def ufSep : List Char := "<UpdateFile>".data

/-- The app fragment separator (device.py line 567). -/
def appSep : List Char := "<App>".data

/-- The pattern `<Major>\d+</Major><Minor>\d+</Minor>` (device.py
line 487). -/
def patMM : List PatTok :=
  [PatTok.lit "<Major>".data, PatTok.digits,
   PatTok.lit "</Major><Minor>".data, PatTok.digits,
   PatTok.lit "</Minor>".data]

/-- A concrete occurrence of `patMM` with digit runs `dsM`, `dsN`. -/
def mmOcc (dsM dsN : List Char) : List Char :=
  "<Major>".data ++ dsM ++ "</Major><Minor>".data ++ dsN ++ "</Minor>".data

/-- The replacement `<Major>{major}</Major><Minor>{minor}</Minor>`. -/
def mmRepl (major minor : Int) : List Char :=
  ("<Major>" ++ toString major ++ "</Major><Minor>" ++ toString minor ++
   "</Minor>").data

/-- The pattern `<Version>\d+</Version>` (device.py line 571). -/
def patV : List PatTok :=
  [PatTok.lit "<Version>".data, PatTok.digits, PatTok.lit "</Version>".data]

/-- A concrete occurrence of `patV` with digit run `ds`. -/
def vOcc (ds : List Char) : List Char :=
  "<Version>".data ++ ds ++ "</Version>".data

/-- The replacement `<Version>{version_int}</Version>`. -/
def vRepl (versionInt : Int) : List Char :=
  ("<Version>" ++ toString versionInt ++ "</Version>").data

/-- Indices of the firmware fragments containing
`<PartNumber>{part_number}</PartNumber>` (device.py line 484). -/
def fwMatchIdxs (partNumber : String) (xml : List Char) : List Nat :=
  (List.range (splitOnL ufSep xml).length).filter
    (fun i => occursL ("<PartNumber>" ++ partNumber ++ "</PartNumber>").data
      ((splitOnL ufSep xml).getD i []))

/-- `__update_xml` of `Device.update_firmwares`: locate the unique
fragment, rewrite its version fields, rejoin.  Zero or several matching
fragments raise, modelled as `none`. -/
def updateFirmwareXml (partNumber : String) (major minor : Int)
    (xml : List Char) : Option (List Char) :=
  match fwMatchIdxs partNumber xml with
  | [i] =>
    some (joinSepL ufSep ((splitOnL ufSep xml).set i
      (reSubPat patMM (mmRepl major minor) ((splitOnL ufSep xml).getD i []))))
  | _ => none

/-- Indices of the app fragments containing
`<StoreId>{app_guid}</StoreId>` (device.py line 568). -/
def appMatchIdxs (appGuid : String) (xml : List Char) : List Nat :=
  (List.range (splitOnL appSep xml).length).filter
    (fun i => occursL ("<StoreId>" ++ appGuid ++ "</StoreId>").data
      ((splitOnL appSep xml).getD i []))

/-- `__update_xml` of `Device.update_apps`: locate the unique fragment,
rewrite its version field, rejoin. -/
def updateAppXml (appGuid : String) (versionInt : Int)
    (xml : List Char) : Option (List Char) :=
  match appMatchIdxs appGuid xml with
  | [i] =>
    some (joinSepL appSep ((splitOnL appSep xml).set i
      (reSubPat patV (vRepl versionInt) ((splitOnL appSep xml).getD i []))))
  | _ => none

/-! ### Batch firmware update by names (`Device.update_firmwares`,
device.py lines 448-529, names branch)

State of the `Device` object during the batch: the two pending lists
(`self.apps_updates` is `None` until `get_apps_updates` has run), the
in-memory manifest string `self.xml_raw`, and the persisted manifest
file.  `FirmwareUpdate.process` performs the download and the device
file write; its network download is modelled as succeeding and it
returns the written path. -/

structure FwUpdSt where
  firmwaresUpdates : List FirmwareUpdate
  appsUpdates : Option (List AppUpdate)
  xmlRaw : List Char
  fileContent : List Char
deriving DecidableEq, Repr

inductive BatchErr
  | invalidName | xmlPatchFailed | attributeErrorNonePop | indexError
deriving DecidableEq, Repr

/-- The loop `for id, update in enumerate(self.get_firmwares_updates(False))`
(device.py lines 501-505).  CPython's list iterator is index based, so a
`pop(id)` at the just-yielded index makes the iterator skip the element
that slides into that position; the loop below iterates the shared index
`i` over the live, mutated list, exactly as CPython does.  On a match the
body pops the update, processes it (appending the returned path), records
`id` in `ids_torm`, and patches the manifest (which also rewrites
`self.xml_raw` and the file).  The first argument is fuel (one unit per
iteration); the caller supplies `length + 1`, which is always enough
since `length - i` shrinks every iteration. -/
def fwByNameLoop (names : List String) (root : String) :
    Nat → Nat → FwUpdSt → List String → List Nat →
    Option BatchErr × FwUpdSt × List String × List Nat
  | 0, _, st, paths, idsTorm => (none, st, paths, idsTorm)
  | fuel + 1, i, st, paths, idsTorm =>
    if h : i < st.firmwaresUpdates.length then
      let u := st.firmwaresUpdates.get ⟨i, h⟩
      if u.name ∈ names then
        let st1 : FwUpdSt :=
          { st with firmwaresUpdates := st.firmwaresUpdates.eraseIdx i }
        let p := joinPath root u.unitFilepath
        match updateFirmwareXml u.partNumber u.major u.minor st1.xmlRaw with
        | none =>
          (some BatchErr.xmlPatchFailed, st1, paths ++ [p], idsTorm ++ [i])
        | some xml2 =>
          fwByNameLoop names root fuel (i + 1)
            { st1 with xmlRaw := xml2, fileContent := xml2 }
            (paths ++ [p]) (idsTorm ++ [i])
      else fwByNameLoop names root fuel (i + 1) st paths idsTorm
    else (none, st, paths, idsTorm)

/-- `for id in ids_torm: self.apps_updates.pop(id)` (device.py lines
506-507).  `self.apps_updates` is `None` when app updates were never
fetched, so `pop` raises `AttributeError`; an out-of-range index raises
`IndexError`. -/
def popAppsAt : Option (List AppUpdate) → List Nat →
    Except BatchErr (Option (List AppUpdate))
  | aus, [] => Except.ok aus
  | none, _ :: _ => Except.error BatchErr.attributeErrorNonePop
  | some l, id :: rest =>
    if id < l.length then popAppsAt (some (l.eraseIdx id)) rest
    else Except.error BatchErr.indexError

/-- `Device.update_firmwares(names=...)`: validate the names, run the
loop, pop `ids_torm` from `self.apps_updates`, then `self.read_xml()`
(modelled as re-reading the persisted manifest into `xmlRaw`).  A raised
exception propagates, leaving the mutations made so far in place. -/
def updateFirmwaresByNames (st : FwUpdSt) (root : String)
    (names : List String) : Option BatchErr × FwUpdSt × List String :=
  if names.all (fun n => st.firmwaresUpdates.any (fun u => u.name == n)) then
    match fwByNameLoop names root (st.firmwaresUpdates.length + 1) 0 st [] [] with
    | (some e, st1, paths, _) => (some e, st1, paths)
    | (none, st1, paths, idsTorm) =>
      match popAppsAt st1.appsUpdates idsTorm with
      | Except.error e => (some e, st1, paths)
      | Except.ok aus =>
        (none, { st1 with appsUpdates := aus, xmlRaw := st1.fileContent },
         paths)
  else (some BatchErr.invalidName, st, [])

/-! ### The privacy scrub (`Device.get_firmwares_updates`, device.py
lines 230-235)

Four `re.sub` calls with default flags on the raw manifest before it is
sent to the update-check endpoint. -/

/-- The scrubbed copy of the manifest: strip `<Model>...</Model>`,
replace the `<Id>...</Id>` content by the placeholder, strip
`<Extensions>...</Extensions>` and `<DataType>...</DataType>`. -/
def privacyScrub (xml : List Char) : List Char :=
  let s1 := reSubNG "<Model>".data "</Model>".data [] xml
  let s2 := reSubNG "<Id>".data "</Id>".data "<Id>9999999999</Id>".data s1
  let s3 := reSubNG "<Extensions>".data "</Extensions>".data [] s2
  reSubNG "<DataType>".data "</DataType>".data [] s3

/-! ### `AppUpdate.process` (update.py lines 370-406)

The version-guid lookup and the download are modelled as having
succeeded, supplying `downloaded`, the bytes of the temporary file.  The
device filesystem is an association list from paths to byte lists. -/

/-- The fixed container overhead the vendor's binary container adds to
an app binary (update.py line 392). -/
def containerOverhead : Nat := 520

inductive UpdErr
  | sizeMismatch
deriving DecidableEq, Repr

structure AppProcResult where
  err : Option UpdErr
  fs : List (String × List Nat)
  path : Option String
deriving DecidableEq, Repr

/-- Remove a file if it exists (`os.remove`, update.py lines 397-398). -/
def fsErase (fs : List (String × List Nat)) (p : String) :
    List (String × List Nat) :=
  fs.filter (fun e => e.1 ≠ p)

/-- Write a file (update.py lines 400-401). -/
def fsWrite (fs : List (String × List Nat)) (p : String) (content : List Nat) :
    List (String × List Nat) :=
  (p, content) :: fs

/-- `AppUpdate.process`: check the declared size against the downloaded
byte count plus the container overhead, then delete any existing file at
the destination and write the downloaded bytes there. -/
def appUpdateProcess (u : AppUpdate) (deviceRootpath : String)
    (downloaded : List Nat) (fs : List (String × List Nat)) : AppProcResult :=
  match u.size with
  | some n =>
    if n + containerOverhead ≠ downloaded.length then
      { err := some UpdErr.sizeMismatch, fs := fs, path := none }
    else
      { err := none
        fs := fsWrite (fsErase fs (joinPath deviceRootpath u.unitFilepath))
          (joinPath deviceRootpath u.unitFilepath) downloaded
        path := some (joinPath deviceRootpath u.unitFilepath) }
  | none =>
    { err := none
      fs := fsWrite (fsErase fs (joinPath deviceRootpath u.unitFilepath))
        (joinPath deviceRootpath u.unitFilepath) downloaded
      path := some (joinPath deviceRootpath u.unitFilepath) }

/-- Lookup in the modelled filesystem. -/
def fsLookup (fs : List (String × List Nat)) (p : String) :
    Option (List Nat) :=
  List.lookup p fs

/-! ### The install orchestrator (`Device.install`, device.py lines
668-754)

State of the `Device` object: the installed-app list, the capacity, the
datatype table (`self.datatypes`, a dict modelled as an association
list), the in-memory manifest `self.xml_raw`, the persisted manifest
file, and the list of device files written so far.  Network activity is
recorded as a trace of events: constructing the `App` from kwargs with
`force_load_info=True` issues a catalog request, and each download is a
request; their outcomes are oracle parameters. -/

structure DeviceSt where
  apps : List App
  maxNbApps : Nat
  datatypes : List (String × Datatype)
  xmlRaw : List Char
  fsManifest : List Char
  writtenFiles : List String
deriving DecidableEq, Repr

inductive GslError
  | capacityReached | loadFailed | alreadyInstalled | datatypeKeyError
  | ambiguousDatatype | outputFromUnit | downloadFailed
deriving DecidableEq, Repr

inductive NetEvent
  | loadAppInfo | downloadApp | downloadSettings
deriving DecidableEq, Repr

structure InstallResult where
  err : Option GslError
  st : DeviceSt
  net : List NetEvent
deriving DecidableEq, Repr

/-- Resolve the single file location of the datatype for an app type
(device.py lines 701-713): `get_datatype_key` may raise, the dict lookup
may raise `KeyError`, the file list must have exactly one entry, and a
declared `OutputFromUnit` transfer direction is rejected. -/
def resolveTypeFile (st : DeviceSt) (t : AppType) : Except GslError DFile :=
  match getDatatypeKey t with
  | none => Except.error GslError.datatypeKeyError
  | some key =>
    match List.lookup key st.datatypes with
    | none => Except.error GslError.datatypeKeyError
    | some dt =>
      match dt.files with
      | [f] =>
        if f.transfertDirection = some TransfertDirection.OutputFromUnit then
          Except.error GslError.outputFromUnit
        else Except.ok f
      | _ => Except.error GslError.ambiguousDatatype

/-- Resolve the settings file location (device.py lines 717-730): same
checks against `App._settings_datatype_key`. -/
def resolveSettingsFile (st : DeviceSt) : Except GslError DFile :=
  match List.lookup settingsDatatypeKey st.datatypes with
  | none => Except.error GslError.datatypeKeyError
  | some dt =>
    match dt.files with
    | [f] =>
      if f.transfertDirection = some TransfertDirection.OutputFromUnit then
        Except.error GslError.outputFromUnit
      else Except.ok f
    | _ => Except.error GslError.ambiguousDatatype

/-- The final, committing step (device.py lines 740-751): splice the new
app fragment before `</Apps>` (Python `str.replace` rewrites every
occurrence), write the file, re-read it (`read_xml`), and append the app
to the in-memory list. -/
def finishInstall (st : DeviceSt) (app1 : App) (written : List String)
    (net : List NetEvent) : InstallResult :=
  let newXml := replaceAllL "</Apps>".data
    (appParseXml app1 ++ "</Apps>".data) st.xmlRaw
  { err := none
    st := { st with
      xmlRaw := newXml
      fsManifest := newXml
      apps := st.apps ++ [app1]
      writtenFiles := st.writtenFiles ++ written }
    net := net }

/-- Steps 3-7 of `Device.install`, after the `App` object is available:
duplicate check, datatype resolutions, filename assignment, downloads,
manifest splice. -/
def installAppWith (st : DeviceSt) (root : String) (app : App)
    (net0 : List NetEvent) (dlAppOk dlSetOk : Bool) : InstallResult :=
  if st.apps.any (fun a => a.guid == app.guid) then
    { err := some GslError.alreadyInstalled, st := st, net := net0 }
  else
    match resolveTypeFile st app.type with
    | Except.error e => { err := some e, st := st, net := net0 }
    | Except.ok tf =>
      let ext := tf.extension.getD "PRG"
      let app1 : App := { app with filename := app.guid ++ "." ++ ext }
      let appFilepath := joinPath root (joinPath tf.path app1.filename)
      match resolveSettingsFile st with
      | Except.error e => { err := some e, st := st, net := net0 }
      | Except.ok tf2 =>
        let ext2 := tf2.extension.getD "SET"
        let setFilepath :=
          joinPath root (joinPath tf2.path (app.guid ++ "." ++ ext2))
        if dlAppOk then
          if app1.hasSettings then
            if dlSetOk then
              finishInstall st app1 [appFilepath, setFilepath]
                (net0 ++ [NetEvent.downloadApp, NetEvent.downloadSettings])
            else
              { err := some GslError.downloadFailed
                st := { st with writtenFiles := st.writtenFiles ++ [appFilepath] }
                net := net0 ++ [NetEvent.downloadApp, NetEvent.downloadSettings] }
          else
            finishInstall st app1 [appFilepath] (net0 ++ [NetEvent.downloadApp])
        else
          { err := some GslError.downloadFailed, st := st
            net := net0 ++ [NetEvent.downloadApp] }

/-- `Device.install`: capacity check; construct the `App` from kwargs
(issuing a catalog request) when no `App` object is supplied; then the
remaining steps.  `loadRes` is the oracle outcome of that construction,
`dlAppOk`/`dlSetOk` the outcomes of the two downloads. -/
def installApp (st : DeviceSt) (root : String) (appArg : Option App)
    (loadRes : Except Unit App) (dlAppOk dlSetOk : Bool) : InstallResult :=
  if st.maxNbApps ≤ st.apps.length then
    { err := some GslError.capacityReached, st := st, net := [] }
  else
    match appArg with
    | some a => installAppWith st root a [] dlAppOk dlSetOk
    | none =>
      match loadRes with
      | Except.error _ =>
        { err := some GslError.loadFailed, st := st, net := [NetEvent.loadAppInfo] }
      | Except.ok a =>
        installAppWith st root a [NetEvent.loadAppInfo] dlAppOk dlSetOk

/-! ### Concrete instances used by counterexamples and witnesses -/

/-- A catalog candidate of data type `Map` whose part number is absent
from the installed map. -/
def cMapAbsent : FwCandidate :=
  { softwareVersion := 5, partNumber := "006-B9999-00", urlIsRelative := false
    url := "u", md5 := "", size := 1, unitFilepathRaw := "GARMIN\\M.img"
    displayName := "Map update", dataType := "Map", installationOrder := 0 }

/-- A firmware candidate with installation order 3. -/
def cOrd3 : FwCandidate :=
  { softwareVersion := 5, partNumber := "006-B0003-00", urlIsRelative := false
    url := "u3", md5 := "", size := 1, unitFilepathRaw := "GARMIN\\A.bin"
    displayName := "A", dataType := "Firmware", installationOrder := 3 }

/-- A firmware candidate with installation order 1. -/
def cOrd1 : FwCandidate :=
  { softwareVersion := 7, partNumber := "006-B0001-00", urlIsRelative := false
    url := "u1", md5 := "", size := 1, unitFilepathRaw := "GARMIN\\B.bin"
    displayName := "B", dataType := "PrimaryFirmware", installationOrder := 1 }

/-- A firmware candidate of type `Firmware`, part number `"P1"`,
version 5, installation order 0. -/
def cP1 : FwCandidate :=
  { softwareVersion := 5, partNumber := "P1", urlIsRelative := false
    url := "u", md5 := "", size := 1, unitFilepathRaw := "GARMIN\\C.bin"
    displayName := "C", dataType := "Firmware", installationOrder := 0 }

/-- A pending firmware update named `"FW"` for part `"P1"`. -/
def fwC4 : FirmwareUpdate :=
  { urlIsRelative := false, url := "u", unitFilepath := "GARMIN/fw.bin"
    name := "FW", md5 := "", size := 3, partNumber := "P1", major := 2
    minor := 0, updateType := UpdateType.Firmware, installationOrder := 0 }

/-- A pending app update, present in `apps_updates` while a firmware
batch runs. -/
def auC4 : AppUpdate :=
  { appGuid := "g1", unitFilepath := "APPS/a.PRG", name := "SomeApp"
    size := some 1, versionInt := 4 }

/-- A manifest with one `UpdateFile` fragment for part `"P1"` at version
(1, 0). -/
def xmlC4 : List Char :=
  ("<D><UpdateFile><PartNumber>P1</PartNumber><Version><Major>1</Major>" ++
   "<Minor>0</Minor></Version></UpdateFile></D>").data

/-- Device state at the start of the C4 batch: one pending firmware, one
pending app update. -/
def stC4 : FwUpdSt :=
  { firmwaresUpdates := [fwC4], appsUpdates := some [auC4], xmlRaw := xmlC4
    fileContent := xmlC4 }

/-- An installed app (store id `"g0"`). -/
def appG0 : App :=
  { guid := "g0", versionInt := 3, name := "Installed", filename := "g0.PRG"
    type := AppType.WatchFace, hasSettings := false }

/-- An app to install whose guid collides with `appG0`. -/
def appDup : App :=
  { guid := "g0", versionInt := 5, name := "Dup", filename := ""
    type := AppType.WatchFace, hasSettings := false }

/-- A device state with one installed app and room for one more. -/
def stRoom : DeviceSt :=
  { apps := [appG0], maxNbApps := 2, datatypes := []
    xmlRaw := "<Apps></Apps>".data, fsManifest := "<Apps></Apps>".data
    writtenFiles := [] }

/-- A device state already at capacity. -/
def stFull : DeviceSt :=
  { apps := [appG0], maxNbApps := 1, datatypes := []
    xmlRaw := "<Apps></Apps>".data, fsManifest := "<Apps></Apps>".data
    writtenFiles := [] }

/-- A pending app update with declared size 2. -/
def auC7 : AppUpdate :=
  { appGuid := "g7", unitFilepath := "APPS/g7.PRG", name := "Seven"
    size := some 2, versionInt := 9 }

/-- A manifest whose `Model` block spans several lines, as the
pretty-printed `GarminDevice.xml` always does. -/
def xmlC9 : List Char :=
  "<Device><Model>\n<PartNumber>secret</PartNumber>\n</Model></Device>".data

/-- A manifest with one `UpdateFile` fragment (part `"006-B1"`, version
(5, 30)) and one `App` fragment (store id `"g1"`, version 7). -/
def xmlC8 : List Char :=
  ("<X><UpdateFile><PartNumber>006-B1</PartNumber><Version><Major>5" ++
   "</Major><Minor>30</Minor></Version></UpdateFile><App><StoreId>g1" ++
   "</StoreId><Version>7</Version></App></X>").data

/-! ### Supporting lemmas -/

theorem splitOnLAuxF_ne_nil (sep : List Char) :
    ∀ (fuel : Nat) (s acc : List Char), splitOnLAuxF sep fuel s acc ≠ [] := by
  intro fuel
  induction fuel with
  | zero => intro s acc; simp [splitOnLAuxF]
  | succ n ih =>
    intro s acc
    cases s with
    | nil => simp [splitOnLAuxF]
    | cons c cs =>
      rw [splitOnLAuxF]
      split
      · simp
      · exact ih cs (c :: acc)

theorem joinSepL_cons (sep : List Char) (x : List Char) (xs : List (List Char))
    (h : xs ≠ []) : joinSepL sep (x :: xs) = x ++ sep ++ joinSepL sep xs := by
  cases xs with
  | nil => exact absurd rfl h
  | cons y ys => rfl

/-- `join` is a left inverse of `split`: rebuilding the parts with the
separator restores the original string byte for byte. -/
theorem joinSepL_splitOnLAuxF (sep : List Char) :
    ∀ (fuel : Nat) (s acc : List Char),
      joinSepL sep (splitOnLAuxF sep fuel s acc) = acc.reverse ++ s := by
  intro fuel
  induction fuel with
  | zero => intro s acc; simp [splitOnLAuxF, joinSepL]
  | succ n ih =>
    intro s acc
    cases s with
    | nil => simp [splitOnLAuxF, joinSepL]
    | cons c cs =>
      rw [splitOnLAuxF]
      split
      · rename_i hp
        have hpre : sep <+: (c :: cs) := List.isPrefixOf_iff_prefix.mp hp.1
        obtain ⟨t, ht⟩ := hpre
        have hdrop : List.drop sep.length (c :: cs) = t := by
          rw [← ht, List.drop_left]
        rw [joinSepL_cons sep _ _ (splitOnLAuxF_ne_nil sep _ _ _), hdrop]
        rw [ih t []]
        simp [← ht]
      · rw [ih cs (c :: acc)]
        simp

theorem joinSepL_splitOnL (sep s : List Char) :
    joinSepL sep (splitOnL sep s) = s := by
  have := joinSepL_splitOnLAuxF sep s.length s []
  simpa [splitOnL] using this

theorem reSubPatF_nil (pat : List PatTok) (repl : List Char) (fuel : Nat) :
    reSubPatF pat repl fuel [] = [] := by
  cases fuel <;> rfl

/-- A region in which no match starts is copied verbatim, consuming one
unit of fuel per character. -/
theorem reSubPatF_append_noMatch (pat : List PatTok) (repl : List Char) :
    ∀ (a rest : List Char) (fuel : Nat), (a ++ rest).length ≤ fuel →
      noMatchAt pat a rest = true →
      reSubPatF pat repl fuel (a ++ rest) =
        a ++ reSubPatF pat repl (fuel - a.length) rest := by
  intro a
  induction a with
  | nil => intro rest fuel hf h; simp
  | cons c cs ih =>
    intro rest fuel hf h
    rw [noMatchAt] at h
    simp only [Bool.and_eq_true, Option.isNone_iff_eq_none] at h
    cases fuel with
    | zero => simp at hf
    | succ n =>
      have hcc : (c :: cs) ++ rest = c :: (cs ++ rest) := by simp
      rw [hcc, reSubPatF, h.1]
      have hf2 : (cs ++ rest).length ≤ n := by
        simp only [List.length_append, List.length_cons] at hf ⊢
        omega
      rw [ih rest n hf2 h.2]
      simp only [List.cons_append, List.length_cons, Nat.succ_sub_succ]

/-- The result of `reSubPatF` does not depend on the fuel, as long as
there is enough of it. -/
theorem reSubPatF_fuel_inv (pat : List PatTok) (repl : List Char) :
    ∀ (fuel fuel2 : Nat) (s : List Char), s.length ≤ fuel →
      s.length ≤ fuel2 →
      reSubPatF pat repl fuel s = reSubPatF pat repl fuel2 s := by
  intro fuel
  induction fuel with
  | zero =>
    intro fuel2 s h1 h2
    have : s = [] := by
      cases s with
      | nil => rfl
      | cons c cs => simp at h1
    subst this
    simp [reSubPatF_nil]
  | succ n ih =>
    intro fuel2 s h1 h2
    cases s with
    | nil => simp [reSubPatF_nil]
    | cons c cs =>
      cases fuel2 with
      | zero => simp at h2
      | succ m =>
        simp only [List.length_cons] at h1 h2
        cases hm : tryMatchPat pat (c :: cs) with
        | none =>
          rw [reSubPatF, reSubPatF]
          simp only [hm]
          rw [ih m cs (by omega) (by omega)]
        | some rest =>
          rw [reSubPatF, reSubPatF]
          simp only [hm]
          by_cases hr : rest.length ≤ cs.length
          · rw [if_pos hr, if_pos hr, ih m rest (by omega) (by omega)]
          · rw [if_neg hr, if_neg hr, ih m cs (by omega) (by omega)]

/-- A region in which no match starts is copied verbatim by `reSubPat`. -/
theorem reSubPat_append_noMatch (pat : List PatTok) (repl : List Char)
    (a rest : List Char) (h : noMatchAt pat a rest = true) :
    reSubPat pat repl (a ++ rest) = a ++ reSubPat pat repl rest := by
  rw [reSubPat, reSubPat,
    reSubPatF_append_noMatch pat repl a rest (a ++ rest).length le_rfl h]
  congr 1
  apply reSubPatF_fuel_inv
  · simp [List.length_append]
  · exact le_rfl

/-- A string in which no match starts anywhere is left unchanged. -/
theorem reSubPat_id (pat : List PatTok) (repl : List Char)
    (b : List Char) (h : noMatchAt pat b [] = true) :
    reSubPat pat repl b = b := by
  have := reSubPat_append_noMatch pat repl b [] h
  simpa [reSubPat, reSubPatF_nil] using this

theorem takeWhile_all_append (p : Char → Bool) :
    ∀ (ds rest : List Char), (∀ c ∈ ds, p c = true) →
      (∀ c, rest.head? = some c → p c = false) →
      (ds ++ rest).takeWhile p = ds ∧ (ds ++ rest).dropWhile p = rest := by
  intro ds
  induction ds with
  | nil =>
    intro rest _ hr
    cases rest with
    | nil => simp
    | cons c cs =>
      have := hr c rfl
      simp [List.takeWhile, List.dropWhile, this]
  | cons d ds ih =>
    intro rest hd hr
    have hpd : p d = true := hd d (by simp)
    have := ih rest (fun c hc => hd c (by simp [hc])) hr
    simp [List.takeWhile, List.dropWhile, hpd, this.1, this.2]

/-- Matching a literal token against that literal followed by anything. -/
theorem tryMatchPat_lit_self (l rest : List Char) (ps : List PatTok) :
    tryMatchPat (PatTok.lit l :: ps) (l ++ rest) = tryMatchPat ps rest := by
  rw [tryMatchPat]
  have hpre : l.isPrefixOf (l ++ rest) = true :=
    List.isPrefixOf_iff_prefix.mpr ⟨rest, rfl⟩
  rw [if_pos hpre, List.drop_left]

/-- Matching a digit-run token against a non-empty all-digit run followed
by a non-digit character. -/
theorem tryMatchPat_digits_run (ds rest : List Char) (ps : List PatTok)
    (hne : ds ≠ []) (hd : ∀ c ∈ ds, c.isDigit = true)
    (hr : ∀ c, rest.head? = some c → c.isDigit = false) :
    tryMatchPat (PatTok.digits :: ps) (ds ++ rest) = tryMatchPat ps rest := by
  obtain ⟨htake, hdrop⟩ := takeWhile_all_append Char.isDigit ds rest hd hr
  rw [tryMatchPat, htake, hdrop]
  rw [if_neg (by simpa using hne)]

theorem parseDecimal_nonneg (s : String) (v : ℚ)
    (h : parseDecimal s = some v) : 0 ≤ v := by
  rw [parseDecimal] at h
  split at h
  · split at h
    · simp only [Option.some_inj] at h
      subst h
      positivity
    · simp at h
  · split at h
    · simp only [Option.some_inj] at h
      subst h
      positivity
    · simp at h
  · simp at h

theorem pyInt_of_nonneg (q : ℚ) (h : 0 ≤ q) : pyInt q = ⌊q⌋ := by
  rw [pyInt, if_pos h]

/-- The `<Major>..</Major><Minor>..</Minor>` pattern matches exactly its
concrete occurrences. -/
theorem tryMatchPat_mmOcc (dsM dsN b : List Char)
    (hM : dsM ≠ []) (hMd : ∀ c ∈ dsM, c.isDigit = true)
    (hN : dsN ≠ []) (hNd : ∀ c ∈ dsN, c.isDigit = true) :
    tryMatchPat patMM (mmOcc dsM dsN ++ b) = some b := by
  have h1 : mmOcc dsM dsN ++ b =
      "<Major>".data ++ (dsM ++ ("</Major><Minor>".data ++
        (dsN ++ ("</Minor>".data ++ b)))) := by
    simp [mmOcc]
  rw [h1]
  simp only [patMM]
  rw [tryMatchPat_lit_self]
  rw [tryMatchPat_digits_run dsM _ _ hM hMd (fun c hc => by
    rw [show ("</Major><Minor>".data ++
      (dsN ++ ("</Minor>".data ++ b))).head? = some '<' from rfl] at hc
    injection hc with hc2
    rw [← hc2]
    decide)]
  rw [tryMatchPat_lit_self]
  rw [tryMatchPat_digits_run dsN _ _ hN hNd (fun c hc => by
    rw [show ("</Minor>".data ++ b).head? = some '<' from rfl] at hc
    injection hc with hc2
    rw [← hc2]
    decide)]
  rw [tryMatchPat_lit_self]
  rfl

/-- The `<Version>..</Version>` pattern matches exactly its concrete
occurrences. -/
theorem tryMatchPat_vOcc (ds b : List Char)
    (hne : ds ≠ []) (hd : ∀ c ∈ ds, c.isDigit = true) :
    tryMatchPat patV (vOcc ds ++ b) = some b := by
  have h1 : vOcc ds ++ b =
      "<Version>".data ++ (ds ++ ("</Version>".data ++ b)) := by
    simp [vOcc]
  rw [h1]
  simp only [patV]
  rw [tryMatchPat_lit_self]
  rw [tryMatchPat_digits_run ds _ _ hne hd (fun c hc => by
    rw [show ("</Version>".data ++ b).head? = some '<' from rfl] at hc
    injection hc with hc2
    rw [← hc2]
    decide)]
  rw [tryMatchPat_lit_self]
  rfl

/-- Substituting inside a fragment that is a no-match prefix, one
occurrence, and a no-match suffix rewrites exactly the occurrence. -/
theorem reSubPat_fragment (pat : List PatTok) (repl a occ b : List Char)
    (hA : noMatchAt pat a (occ ++ b) = true)
    (hocc : tryMatchPat pat (occ ++ b) = some b)
    (hne : occ ≠ [])
    (hB : noMatchAt pat b [] = true) :
    reSubPat pat repl (a ++ (occ ++ b)) = a ++ (repl ++ b) := by
  rw [reSubPat_append_noMatch pat repl a (occ ++ b) hA]
  congr 1
  cases occ with
  | nil => exact absurd rfl hne
  | cons o ot =>
    have hco : (o :: ot) ++ b = o :: (ot ++ b) := by simp
    rw [reSubPat, hco]
    have hlen : (o :: (ot ++ b)).length = (ot ++ b).length + 1 := by simp
    have hocc2 : tryMatchPat pat (o :: (ot ++ b)) = some b := by
      rw [← hco]; exact hocc
    rw [hlen, reSubPatF]
    simp only [hocc2]
    rw [if_pos (by simp [List.length_append])]
    have hfi : reSubPatF pat repl (ot ++ b).length b =
        reSubPatF pat repl b.length b := by
      apply reSubPatF_fuel_inv
      · simp [List.length_append]
      · exact le_rfl
    rw [hfi]
    rw [show reSubPatF pat repl b.length b = reSubPat pat repl b from rfl]
    rw [reSubPat_id pat repl b hB]

theorem fsLookup_fsWrite_self (fs : List (String × List Nat)) (p : String)
    (content : List Nat) : fsLookup (fsWrite fs p content) p = some content := by
  rw [fsLookup, fsWrite, List.lookup, beq_self_eq_true]

theorem fsLookup_fsErase_ne (fs : List (String × List Nat)) (p q : String)
    (h : q ≠ p) : fsLookup (fsErase fs p) q = fsLookup fs q := by
  induction fs with
  | nil => rfl
  | cons e t ih =>
    obtain ⟨k, v⟩ := e
    simp only [fsLookup, fsErase, List.filter_cons] at ih ⊢
    by_cases hk : k = p
    · subst hk
      rw [if_neg (by simp)]
      have hb : (q == k) = false := beq_eq_false_iff_ne.mpr h
      rw [ih, List.lookup, hb]
    · rw [if_pos (by simp [hk])]
      by_cases hq : q = k
      · subst hq
        rw [List.lookup, beq_self_eq_true, List.lookup, beq_self_eq_true]
      · have hb : (q == k) = false := beq_eq_false_iff_ne.mpr hq
        rw [List.lookup, hb, List.lookup, hb, ih]

theorem fsLookup_fsWrite_ne (fs : List (String × List Nat)) (p q : String)
    (content : List Nat) (h : q ≠ p) :
    fsLookup (fsWrite fs p content) q = fsLookup fs q := by
  have hb : (q == p) = false := beq_eq_false_iff_ne.mpr h
  rw [fsLookup, fsWrite, List.lookup, hb]
  rfl

/-- The pending check only depends on the part number and the computed
version pair. -/
theorem pendingB_congr (fv : List (String × Int × Int)) (c c2 : FwCandidate)
    (hpn : c2.partNumber = c.partNumber)
    (hmaj : updateMajor c2.softwareVersion = updateMajor c.softwareVersion)
    (hmin : updateMinor c2.softwareVersion = updateMinor c.softwareVersion) :
    pendingB fv c2 = pendingB fv c := by
  rw [pendingB, pendingB, hpn, hmaj, hmin]

/-- The boolean pending check agrees with the specification's phrasing:
part number absent, or (major, minor) lexicographically greater. -/
theorem pendingB_iff (fv : List (String × Int × Int)) (c : FwCandidate) :
    pendingB fv c = true ↔
      (List.lookup c.partNumber fv = none ∨
        ∃ instM instN, List.lookup c.partNumber fv = some (instM, instN) ∧
          (instM < updateMajor c.softwareVersion ∨
            (updateMajor c.softwareVersion = instM ∧
              instN < updateMinor c.softwareVersion))) := by
  rw [pendingB]
  cases hl : List.lookup c.partNumber fv with
  | none => simp
  | some pr =>
    obtain ⟨instM, instN⟩ := pr
    simp only [Bool.or_eq_true, Bool.and_eq_true, decide_eq_true_eq]
    constructor
    · intro hp
      exact Or.inr ⟨instM, instN, rfl, hp⟩
    · rintro (hn | ⟨M2, N2, hs, hp⟩)
      · exact absurd hn (by simp)
      · injection hs with hs2
        injection hs2 with hM hN
        rw [← hM, ← hN] at hp
        exact hp

/-- Membership in the reconciler's output, for a candidate that parses as
a firmware update, is exactly the pending condition. -/
theorem mem_getFirmwaresUpdates_iff (fv : List (String × Int × Int))
    (cands : List FwCandidate) (c : FwCandidate) (t : UpdateType)
    (hc : c ∈ cands) (ht : updateTypeGet c.dataType = some t)
    (hft : t = UpdateType.PrimaryFirmware ∨ t = UpdateType.Firmware) :
    mkFirmwareUpdate c t ∈ getFirmwaresUpdates fv cands ↔
      pendingB fv c = true := by
  rw [getFirmwaresUpdates]
  rw [(List.perm_insertionSort fwLe
    (cands.filterMap (candidateToUpdate fv))).mem_iff]
  rw [List.mem_filterMap]
  constructor
  · rintro ⟨c2, hc2, heq⟩
    rw [candidateToUpdate] at heq
    by_cases hp2 : pendingB fv c2
    · rw [if_pos hp2] at heq
      cases ht2 : updateTypeGet c2.dataType with
      | none =>
        simp only [ht2] at heq
        exact Option.noConfusion heq
      | some t2 =>
        simp only [ht2] at heq
        by_cases hft2 : t2 = UpdateType.PrimaryFirmware ∨
            t2 = UpdateType.Firmware
        · rw [if_pos hft2] at heq
          injection heq with heq2
          simp only [mkFirmwareUpdate, FirmwareUpdate.mk.injEq] at heq2
          obtain ⟨_, _, _, _, _, _, hpn, hmaj, hmin, _, _⟩ := heq2
          rw [← pendingB_congr fv c c2 hpn hmaj hmin]
          exact hp2
        · rw [if_neg hft2] at heq; exact absurd heq (by simp)
    · rw [if_neg hp2] at heq; exact absurd heq (by simp)
  · intro hp
    refine ⟨c, hc, ?_⟩
    rw [candidateToUpdate, if_pos hp]
    simp only [ht]
    rw [if_pos hft]

/-! ### The claims -/

/-- C1 (counterexample): the claim "a candidate appears in the pending
list iff its part number is absent from the installed map or its version
pair is lexicographically greater — in particular, a candidate with an
absent part number is always pending" is false as stated: a candidate of
data type `Map` with an absent part number satisfies the condition, yet
`get_firmwares_updates` yields an empty pending list, because the
`FirmwareUpdate` constructor rejects non-firmware data types and the
surrounding `try` skips the candidate. -/
theorem c1_counterexample :
    List.lookup cMapAbsent.partNumber ([] : List (String × Int × Int)) =
      none ∧
    getFirmwaresUpdates [] [cMapAbsent] = [] := by
  exact ⟨rfl, by decide⟩

/-- C1 (amended): for every catalog candidate that parses as a firmware
update (its `DataType` is `PrimaryFirmware` or `Firmware`), the
constructed update appears in the pending list iff the part number is
not a key of the installed map or the candidate's (major, minor) pair is
lexicographically greater than the installed pair; in particular such a
candidate with an absent part number is always pending, and one with an
equal or lower version never is. -/
theorem c1_pending_iff (fv : List (String × Int × Int))
    (cands : List FwCandidate) (c : FwCandidate) (t : UpdateType)
    (hc : c ∈ cands) (ht : updateTypeGet c.dataType = some t)
    (hft : t = UpdateType.PrimaryFirmware ∨ t = UpdateType.Firmware) :
    (mkFirmwareUpdate c t ∈ getFirmwaresUpdates fv cands ↔
      (List.lookup c.partNumber fv = none ∨
        ∃ instM instN, List.lookup c.partNumber fv = some (instM, instN) ∧
          (instM < updateMajor c.softwareVersion ∨
            (updateMajor c.softwareVersion = instM ∧
              instN < updateMinor c.softwareVersion)))) ∧
    (List.lookup c.partNumber fv = none →
      mkFirmwareUpdate c t ∈ getFirmwaresUpdates fv cands) ∧
    (∀ instM instN, List.lookup c.partNumber fv = some (instM, instN) →
      (updateMajor c.softwareVersion < instM ∨
        (updateMajor c.softwareVersion = instM ∧
          updateMinor c.softwareVersion ≤ instN)) →
      mkFirmwareUpdate c t ∉ getFirmwaresUpdates fv cands) := by
  have hmem := mem_getFirmwaresUpdates_iff fv cands c t hc ht hft
  have hiff := (pendingB_iff fv c).symm.trans hmem.symm
  refine ⟨hiff.symm, ?_, ?_⟩
  · intro hnone
    exact hmem.mpr ((pendingB_iff fv c).mpr (Or.inl hnone))
  · intro instM instN hlook hle hmem2
    have hp := (pendingB_iff fv c).mp (hmem.mp hmem2)
    rcases hp with hnone | ⟨M2, N2, hs, hp2⟩
    · rw [hlook] at hnone
      exact Option.noConfusion hnone
    · rw [hlook] at hs
      injection hs with hs2
      injection hs2 with hM hN
      subst hM
      subst hN
      omega

/-- C1 (witness): a `Firmware` candidate for part `"P1"` at version 2.05
against an installed map holding `("P1", (1, 0))`. -/
theorem c1_pending_iff_witness :
    cP1 ∈ [cP1] ∧ updateTypeGet cP1.dataType = some UpdateType.Firmware ∧
    ((mkFirmwareUpdate cP1 UpdateType.Firmware ∈
        getFirmwaresUpdates [("P1", 1, 0)] [cP1] ↔
      (List.lookup cP1.partNumber [("P1", (1 : Int), (0 : Int))] = none ∨
        ∃ instM instN,
          List.lookup cP1.partNumber [("P1", (1 : Int), (0 : Int))] =
            some (instM, instN) ∧
          (instM < updateMajor cP1.softwareVersion ∨
            (updateMajor cP1.softwareVersion = instM ∧
              instN < updateMinor cP1.softwareVersion)))) ∧
    (List.lookup cP1.partNumber [("P1", (1 : Int), (0 : Int))] = none →
      mkFirmwareUpdate cP1 UpdateType.Firmware ∈
        getFirmwaresUpdates [("P1", 1, 0)] [cP1]) ∧
    (∀ instM instN,
      List.lookup cP1.partNumber [("P1", (1 : Int), (0 : Int))] =
        some (instM, instN) →
      (updateMajor cP1.softwareVersion < instM ∨
        (updateMajor cP1.softwareVersion = instM ∧
          updateMinor cP1.softwareVersion ≤ instN)) →
      mkFirmwareUpdate cP1 UpdateType.Firmware ∉
        getFirmwaresUpdates [("P1", 1, 0)] [cP1])) :=
  ⟨by decide, by decide,
    c1_pending_iff [("P1", 1, 0)] [cP1] cP1 UpdateType.Firmware
      (by decide) (by decide) (Or.inr rfl)⟩

/-- C2 (counterexample): the claim computes the minor component by
rounding, `minor = round(v*100) % 100`, but the code truncates:
`int(float(v) * 100) % 100`.  For the decimal version string `"2.157"`
the code yields 15 while the claimed formula yields 16. -/
theorem c2_counterexample :
    parseDecimal "2.157" = some ((2 : ℚ) + (157 : ℚ) / (10 ^ (3 : Nat) : ℚ)) ∧
    updateMinor ((2 : ℚ) + (157 : ℚ) / (10 ^ (3 : Nat) : ℚ)) = 15 ∧
    round (((2 : ℚ) + (157 : ℚ) / (10 ^ (3 : Nat) : ℚ)) * 100) % 100 = 16 := by
  refine ⟨rfl, ?_, ?_⟩
  · have h1 : ((2 : ℚ) + (157 : ℚ) / (10 ^ (3 : Nat) : ℚ)) * 100 = 2157 / 10 := by
      norm_num
    rw [updateMinor, pyInt_of_nonneg _ (by norm_num), h1]
    rw [show (2157 / 10 : ℚ) = ((2157 : ℤ) : ℚ) / ((10 : ℕ) : ℚ) by norm_num,
      Rat.floor_intCast_div_natCast]
    decide
  · have h1 : ((2 : ℚ) + (157 : ℚ) / (10 ^ (3 : Nat) : ℚ)) * 100 = 2157 / 10 := by
      norm_num
    rw [h1, round_eq]
    rw [show (2157 / 10 : ℚ) + 1 / 2 = 2162 / 10 by norm_num]
    rw [show (2162 / 10 : ℚ) = ((2162 : ℤ) : ℚ) / ((10 : ℕ) : ℚ) by norm_num,
      Rat.floor_intCast_div_natCast]
    decide

/-- C2 (amended): for a candidate whose decimal version string parses to
the exact rational `v`, the code computes `major = floor(v)` and
`minor = floor(v * 100) % 100` — truncation of `v * 100`, not rounding
(versions are non-negative, so `int()` truncation is `floor`). -/
theorem c2_version_pair (s : String) (v : ℚ) (h : parseDecimal s = some v) :
    updateMajor v = ⌊v⌋ ∧ updateMinor v = ⌊v * 100⌋ % 100 := by
  have hv := parseDecimal_nonneg s v h
  constructor
  · rw [updateMajor, pyInt_of_nonneg v hv]
  · rw [updateMinor, pyInt_of_nonneg _ (by positivity)]

/-- C2 (witness): the version string `"2.157"`. -/
theorem c2_version_pair_witness :
    parseDecimal "2.157" = some ((2 : ℚ) + (157 : ℚ) / (10 ^ (3 : Nat) : ℚ)) ∧
    (updateMajor ((2 : ℚ) + (157 : ℚ) / (10 ^ (3 : Nat) : ℚ)) =
        ⌊((2 : ℚ) + (157 : ℚ) / (10 ^ (3 : Nat) : ℚ))⌋ ∧
      updateMinor ((2 : ℚ) + (157 : ℚ) / (10 ^ (3 : Nat) : ℚ)) =
        ⌊((2 : ℚ) + (157 : ℚ) / (10 ^ (3 : Nat) : ℚ)) * 100⌋ % 100) :=
  ⟨rfl, c2_version_pair "2.157" ((2 : ℚ) + (157 : ℚ) / (10 ^ (3 : Nat) : ℚ)) rfl⟩

/-- C3: the pending firmware list is always sorted ascending by
installation order; in particular, for two candidates with installation
orders 3 and 1, the output lists order 1 before order 3. -/
theorem c3_sorted_by_installation_order :
    (∀ (fv : List (String × Int × Int)) (cands : List FwCandidate),
      List.Sorted fwLe (getFirmwaresUpdates fv cands)) ∧
    (getFirmwaresUpdates [] [cOrd3, cOrd1]).map
      (fun u => u.installationOrder) = [1, 3] := by
  constructor
  · intro fv cands
    exact List.sorted_insertionSort fwLe _
  · decide

/-- C4 (code bug): `Device.update_firmwares(names=["FW"])` on a state
with one pending firmware named `"FW"` and one pending app update.  The
batch succeeds and removes the firmware from its own pending list, but
it ALSO removes the pending app update: the `ids_torm` loop at
device.py lines 506-507 pops from `self.apps_updates` instead of
`self.firmwares_updates` (and would raise `AttributeError` had app
updates never been fetched, `apps_updates` being `None` then).  The
claim says only the processed firmware, from its own list, is removed. -/
theorem c4_firmware_batch_pops_app_list :
    (updateFirmwaresByNames stC4 "/dev" ["FW"]).1 = none ∧
    (updateFirmwaresByNames stC4 "/dev" ["FW"]).2.1.firmwaresUpdates = [] ∧
    (updateFirmwaresByNames stC4 "/dev" ["FW"]).2.1.appsUpdates = some [] :=
  ⟨by decide, by decide, by decide⟩

/-- C9 (code bug): the privacy scrub's `re.sub` patterns use `.`, which
does not match a newline, so a `Model` block spanning several lines (the
normal pretty-printed manifest layout) is NOT stripped: the scrub leaves
the manifest byte-identical, and the model's part number is still
transmitted.  A single-line block, by contrast, is stripped and the
device id placeholder substituted, confirming the embedding. -/
theorem c9_scrub_misses_multiline_blocks :
    privacyScrub xmlC9 = xmlC9 ∧
    occursL "<PartNumber>secret</PartNumber>".data (privacyScrub xmlC9) =
      true ∧
    privacyScrub "<Model>x</Model><Id>5</Id>".data =
      "<Id>9999999999</Id>".data :=
  ⟨by decide, by decide, by decide⟩

/-- C10 (counterexample): the round-trip fails for `MusicApp`:
`App.parse_xml` emits `"audio-content-provider-app"`, which
`App.Type.get` rejects (it only accepts `"musicapp"`), so re-parsing a
manifest containing an installed music app raises. -/
theorem c10_counterexample :
    appTypeGet (appTypeXmlStr AppType.MusicApp) = none ∧
    appTypeGet (appTypeXmlStr AppType.MusicApp) ≠ some AppType.MusicApp :=
  ⟨by decide, by decide⟩

/-- C10 (amended): for every app category other than `MusicApp`
(including `Unknown`, which `parse_xml` emits as `"unknown"`), the
`AppType` string emitted by `App.parse_xml` maps back through
`App.Type.get` to the original category. -/
theorem c10_app_type_roundtrip (t : AppType) (h : t ≠ AppType.MusicApp) :
    appTypeGet (appTypeXmlStr t) = some t := by
  cases t <;> first | decide | exact absurd rfl h

/-- C10 (witness): the `WatchFace` category round-trips. -/
theorem c10_app_type_roundtrip_witness :
    (AppType.WatchFace ≠ AppType.MusicApp) ∧
    appTypeGet (appTypeXmlStr AppType.WatchFace) = some AppType.WatchFace :=
  ⟨by decide, c10_app_type_roundtrip AppType.WatchFace (by decide)⟩

/-- C6 (amended): when the `App` object is passed to `Device.install`
directly, a GUID already present in the installed-app list (with
capacity available) raises the already-installed error with no network
activity at all; the state is returned unchanged. -/
theorem c6_already_installed_no_network (st : DeviceSt) (root : String)
    (app : App) (loadRes : Except Unit App) (dlAppOk dlSetOk : Bool)
    (h1 : st.apps.length < st.maxNbApps)
    (h2 : st.apps.any (fun a => a.guid == app.guid) = true) :
    installApp st root (some app) loadRes dlAppOk dlSetOk =
      { err := some GslError.alreadyInstalled, st := st, net := [] } := by
  have hcap : ¬ st.maxNbApps ≤ st.apps.length := by omega
  simp [installApp, hcap, installAppWith, h2]

/-- C6 (witness): a device with one installed app, capacity two, and an
install request carrying an `App` object with the installed GUID. -/
theorem c6_already_installed_no_network_witness :
    stRoom.apps.length < stRoom.maxNbApps ∧
    stRoom.apps.any (fun a => a.guid == appDup.guid) = true ∧
    installApp stRoom "/dev" (some appDup) (Except.error ()) true true =
      { err := some GslError.alreadyInstalled, st := stRoom, net := [] } :=
  ⟨by decide, by decide,
    c6_already_installed_no_network stRoom "/dev" appDup (Except.error ())
      true true (by decide) (by decide)⟩

/-- C6 (counterexample): the claim promises "no network call" for every
install of a duplicate GUID, but when the `App` is built from kwargs
(`app=None`), `App(**kwargs, force_load_info=True)` issues a catalog
request BEFORE the duplicate check, so the already-installed error is
raised after one network call. -/
theorem c6_counterexample :
    (installApp stRoom "/dev" none (Except.ok appDup) true true).err =
      some GslError.alreadyInstalled ∧
    (installApp stRoom "/dev" none (Except.ok appDup) true true).net =
      [NetEvent.loadAppInfo] :=
  ⟨by decide, by decide⟩

/-- Every failing branch of steps 3-7 of `Device.install` leaves the
installed-app list, the persisted manifest, and the in-memory manifest
untouched. -/
theorem installAppWith_frame (st : DeviceSt) (root : String) (app : App)
    (net0 : List NetEvent) (dlAppOk dlSetOk : Bool)
    (h : (installAppWith st root app net0 dlAppOk dlSetOk).err.isSome =
      true) :
    (installAppWith st root app net0 dlAppOk dlSetOk).st.apps = st.apps ∧
    (installAppWith st root app net0 dlAppOk dlSetOk).st.fsManifest =
      st.fsManifest ∧
    (installAppWith st root app net0 dlAppOk dlSetOk).st.xmlRaw =
      st.xmlRaw := by
  by_cases hdup : st.apps.any (fun a => a.guid == app.guid)
  · simp [installAppWith, hdup]
  · cases htf : resolveTypeFile st app.type with
    | error e => simp [installAppWith, hdup, htf]
    | ok tf =>
      cases hsf : resolveSettingsFile st with
      | error e2 => simp [installAppWith, hdup, htf, hsf]
      | ok tf2 =>
        cases hdl : dlAppOk with
        | false => simp [installAppWith, hdup, htf, hsf, hdl]
        | true =>
          cases hset : app.hasSettings with
          | false =>
            simp [installAppWith, hdup, htf, hsf, hdl, hset,
              finishInstall] at h
          | true =>
            cases hdls : dlSetOk with
            | true =>
              simp [installAppWith, hdup, htf, hsf, hdl, hset, hdls,
                finishInstall] at h
            | false =>
              simp [installAppWith, hdup, htf, hsf, hdl, hset, hdls]

/-- C5: every failing `Device.install` call — capacity check, app
construction, duplicate check, datatype resolution, or the
binary/settings download — raises before the manifest-splice step,
leaving the in-memory apps list, the persisted manifest file, and the
in-memory manifest string exactly as they were; in particular an install
rejected at capacity (`len(apps) == maxApps`) reports the capacity
error. -/
theorem c5_install_frame (st : DeviceSt) (root : String)
    (appArg : Option App) (loadRes : Except Unit App)
    (dlAppOk dlSetOk : Bool)
    (h : (installApp st root appArg loadRes dlAppOk dlSetOk).err.isSome =
      true) :
    (installApp st root appArg loadRes dlAppOk dlSetOk).st.apps =
      st.apps ∧
    (installApp st root appArg loadRes dlAppOk dlSetOk).st.fsManifest =
      st.fsManifest ∧
    (installApp st root appArg loadRes dlAppOk dlSetOk).st.xmlRaw =
      st.xmlRaw ∧
    (st.apps.length = st.maxNbApps →
      (installApp st root appArg loadRes dlAppOk dlSetOk).err =
        some GslError.capacityReached) := by
  by_cases hcap : st.maxNbApps ≤ st.apps.length
  · have h2 : installApp st root appArg loadRes dlAppOk dlSetOk =
        { err := some GslError.capacityReached, st := st, net := [] } := by
      simp [installApp, hcap]
    rw [h2]
    exact ⟨rfl, rfl, rfl, fun _ => rfl⟩
  · have hv : st.apps.length = st.maxNbApps →
        (installApp st root appArg loadRes dlAppOk dlSetOk).err =
          some GslError.capacityReached := by
      intro heq
      exact absurd (heq ▸ le_rfl) hcap
    cases appArg with
    | some a =>
      have h2 : installApp st root (some a) loadRes dlAppOk dlSetOk =
          installAppWith st root a [] dlAppOk dlSetOk := by
        simp [installApp, hcap]
      rw [h2] at h
      have h3 := installAppWith_frame st root a [] dlAppOk dlSetOk h
      refine ⟨?_, ?_, ?_, hv⟩ <;> rw [h2]
      · exact h3.1
      · exact h3.2.1
      · exact h3.2.2
    | none =>
      cases loadRes with
      | error u =>
        have h2 : installApp st root none (Except.error u) dlAppOk dlSetOk =
            { err := some GslError.loadFailed, st := st
              net := [NetEvent.loadAppInfo] } := by
          simp [installApp, hcap]
        refine ⟨?_, ?_, ?_, hv⟩ <;> rw [h2]
      | ok a =>
        have h2 : installApp st root none (Except.ok a) dlAppOk dlSetOk =
            installAppWith st root a [NetEvent.loadAppInfo]
              dlAppOk dlSetOk := by
          simp [installApp, hcap]
        rw [h2] at h
        have h3 := installAppWith_frame st root a [NetEvent.loadAppInfo]
          dlAppOk dlSetOk h
        refine ⟨?_, ?_, ?_, hv⟩ <;> rw [h2]
        · exact h3.1
        · exact h3.2.1
        · exact h3.2.2

/-- C5 (witness): an install on a device already at capacity. -/
theorem c5_install_frame_witness :
    (installApp stFull "/dev" (some appDup) (Except.error ()) true
      true).err.isSome = true ∧
    ((installApp stFull "/dev" (some appDup) (Except.error ()) true
        true).st.apps = stFull.apps ∧
      (installApp stFull "/dev" (some appDup) (Except.error ()) true
        true).st.fsManifest = stFull.fsManifest ∧
      (installApp stFull "/dev" (some appDup) (Except.error ()) true
        true).st.xmlRaw = stFull.xmlRaw ∧
      (stFull.apps.length = stFull.maxNbApps →
        (installApp stFull "/dev" (some appDup) (Except.error ()) true
          true).err = some GslError.capacityReached)) :=
  ⟨by decide,
    c5_install_frame stFull "/dev" (some appDup) (Except.error ()) true true
      (by decide)⟩

/-- C7: `AppUpdate.process` with a declared expected size fails with the
size-mismatch error iff the downloaded byte count differs from
`expectedSize + 520` (the fixed container overhead); when the sizes
agree the downloaded bytes replace the on-device file at the update's
destination path (any prior file deleted first) and no other file is
touched. -/
theorem c7_app_update_size_check (u : AppUpdate) (root : String)
    (downloaded : List Nat) (fs : List (String × List Nat)) (n : Nat)
    (hn : u.size = some n) :
    ((appUpdateProcess u root downloaded fs).err =
        some UpdErr.sizeMismatch ↔ downloaded.length ≠ n + 520) ∧
    (downloaded.length = n + 520 →
      (appUpdateProcess u root downloaded fs).err = none ∧
      fsLookup (appUpdateProcess u root downloaded fs).fs
        (joinPath root u.unitFilepath) = some downloaded ∧
      ∀ p, p ≠ joinPath root u.unitFilepath →
        fsLookup (appUpdateProcess u root downloaded fs).fs p =
          fsLookup fs p) := by
  by_cases hsz : n + containerOverhead ≠ downloaded.length
  · have h2 : appUpdateProcess u root downloaded fs =
        { err := some UpdErr.sizeMismatch, fs := fs, path := none } := by
      simp only [appUpdateProcess, hn]
      rw [if_pos hsz]
    rw [h2]
    rw [containerOverhead] at hsz
    constructor
    · simp only [Option.some.injEq, true_iff]
      omega
    · intro heq
      exact absurd heq (by omega)
  · push_neg at hsz
    have h2 : appUpdateProcess u root downloaded fs =
        { err := none
          fs := fsWrite (fsErase fs (joinPath root u.unitFilepath))
            (joinPath root u.unitFilepath) downloaded
          path := some (joinPath root u.unitFilepath) } := by
      simp only [appUpdateProcess, hn]
      rw [if_neg (by omega)]
    rw [h2]
    rw [containerOverhead] at hsz
    constructor
    · simp only [iff_iff_implies_and_implies]
      constructor
      · intro hx
        exact Option.noConfusion hx
      · intro hx
        exact absurd hsz.symm hx
    · intro _
      refine ⟨rfl, ?_, ?_⟩
      · exact fsLookup_fsWrite_self _ _ _
      · intro p hp
        rw [fsLookup_fsWrite_ne _ _ _ _ hp, fsLookup_fsErase_ne _ _ _ hp]

/-- C7 (witness): declared size 2, downloaded byte count 522. -/
theorem c7_app_update_size_check_witness :
    auC7.size = some 2 ∧
    (((appUpdateProcess auC7 "/r" (List.replicate 522 0) []).err =
        some UpdErr.sizeMismatch ↔
          (List.replicate 522 (0 : Nat)).length ≠ 2 + 520) ∧
      ((List.replicate 522 (0 : Nat)).length = 2 + 520 →
        (appUpdateProcess auC7 "/r" (List.replicate 522 0) []).err = none ∧
        fsLookup (appUpdateProcess auC7 "/r" (List.replicate 522 0) []).fs
          (joinPath "/r" auC7.unitFilepath) =
            some (List.replicate 522 0) ∧
        ∀ p, p ≠ joinPath "/r" auC7.unitFilepath →
          fsLookup (appUpdateProcess auC7 "/r"
            (List.replicate 522 0) []).fs p =
              fsLookup [] p)) :=
  ⟨rfl, c7_app_update_size_check auC7 "/r" (List.replicate 522 0) [] 2 rfl⟩

/-- C8: manifest persistence patches exactly one fragment.  For the
firmware patcher: if the fragments of the manifest (split on
`<UpdateFile>`) contain the matching part-number tag exactly at index
`i`, and fragment `i` is a prefix with no version-pattern match, one
`<Major>..</Major><Minor>..</Minor>` occurrence, and a suffix with no
match, then the result rejoins the unchanged fragments with only that
occurrence rewritten — and rejoining the split fragments is the identity,
so every byte outside the occurrence is preserved.  The app patcher
behaves the same for `<App>`/`<StoreId>`/`<Version>`.  When the number of
matching fragments is not exactly one, both patchers fail. -/
theorem c8_manifest_patch (pn : String) (maj minr : Int) (xml1 : List Char)
    (i : Nat) (a1 b1 dsM dsN : List Char)
    (hidx1 : fwMatchIdxs pn xml1 = [i])
    (hfrag1 : (splitOnL ufSep xml1).getD i [] = a1 ++ (mmOcc dsM dsN ++ b1))
    (hMne : dsM ≠ []) (hMd : ∀ c ∈ dsM, c.isDigit = true)
    (hNne : dsN ≠ []) (hNd : ∀ c ∈ dsN, c.isDigit = true)
    (hA1 : noMatchAt patMM a1 (mmOcc dsM dsN ++ b1) = true)
    (hB1 : noMatchAt patMM b1 [] = true)
    (guid : String) (ver : Int) (xml2 : List Char) (j : Nat)
    (a2 b2 dsV : List Char)
    (hidx2 : appMatchIdxs guid xml2 = [j])
    (hfrag2 : (splitOnL appSep xml2).getD j [] = a2 ++ (vOcc dsV ++ b2))
    (hVne : dsV ≠ []) (hVd : ∀ c ∈ dsV, c.isDigit = true)
    (hA2 : noMatchAt patV a2 (vOcc dsV ++ b2) = true)
    (hB2 : noMatchAt patV b2 [] = true)
    (xml3 xml4 : List Char)
    (h3 : (fwMatchIdxs pn xml3).length ≠ 1)
    (h4 : (appMatchIdxs guid xml4).length ≠ 1) :
    updateFirmwareXml pn maj minr xml1 =
      some (joinSepL ufSep ((splitOnL ufSep xml1).set i
        (a1 ++ (mmRepl maj minr ++ b1)))) ∧
    joinSepL ufSep (splitOnL ufSep xml1) = xml1 ∧
    updateAppXml guid ver xml2 =
      some (joinSepL appSep ((splitOnL appSep xml2).set j
        (a2 ++ (vRepl ver ++ b2)))) ∧
    joinSepL appSep (splitOnL appSep xml2) = xml2 ∧
    updateFirmwareXml pn maj minr xml3 = none ∧
    updateAppXml guid ver xml4 = none := by
  refine ⟨?_, joinSepL_splitOnL ufSep xml1, ?_,
    joinSepL_splitOnL appSep xml2, ?_, ?_⟩
  · simp only [updateFirmwareXml, hidx1]
    rw [hfrag1]
    rw [reSubPat_fragment patMM (mmRepl maj minr) a1 (mmOcc dsM dsN) b1 hA1
      (tryMatchPat_mmOcc dsM dsN b1 hMne hMd hNne hNd)
      (by simp [mmOcc]) hB1]
  · simp only [updateAppXml, hidx2]
    rw [hfrag2]
    rw [reSubPat_fragment patV (vRepl ver) a2 (vOcc dsV) b2 hA2
      (tryMatchPat_vOcc dsV b2 hVne hVd) (by simp [vOcc]) hB2]
  · rcases hm : fwMatchIdxs pn xml3 with _ | ⟨k, tl⟩
    · simp [updateFirmwareXml, hm]
    · cases tl with
      | nil =>
        rw [hm] at h3
        simp at h3
      | cons k2 tl2 => simp [updateFirmwareXml, hm]
  · rcases hm : appMatchIdxs guid xml4 with _ | ⟨k, tl⟩
    · simp [updateAppXml, hm]
    · cases tl with
      | nil =>
        rw [hm] at h4
        simp at h4
      | cons k2 tl2 => simp [updateAppXml, hm]

/-- C8 (witness): a manifest with one firmware fragment (part
`"006-B1"`, version (5, 30)) patched to (6, 40), and one app fragment
(store id `"g1"`, version 7) patched to 9. -/
theorem c8_manifest_patch_witness :
    fwMatchIdxs "006-B1" xmlC8 = [1] ∧
    appMatchIdxs "g1" xmlC8 = [1] ∧
    (updateFirmwareXml "006-B1" 6 40 xmlC8 =
      some (joinSepL ufSep ((splitOnL ufSep xmlC8).set 1
        ("<PartNumber>006-B1</PartNumber><Version>".data ++
          (mmRepl 6 40 ++
            ("</Version></UpdateFile><App><StoreId>g1</StoreId>" ++
             "<Version>7</Version></App></X>").data)))) ∧
    joinSepL ufSep (splitOnL ufSep xmlC8) = xmlC8 ∧
    updateAppXml "g1" 9 xmlC8 =
      some (joinSepL appSep ((splitOnL appSep xmlC8).set 1
        ("<StoreId>g1</StoreId>".data ++
          (vRepl 9 ++ "</App></X>".data)))) ∧
    joinSepL appSep (splitOnL appSep xmlC8) = xmlC8 ∧
    updateFirmwareXml "006-B1" 6 40 [] = none ∧
    updateAppXml "g1" 9 [] = none) :=
  ⟨by decide, by decide,
    c8_manifest_patch "006-B1" 6 40 xmlC8 1
      "<PartNumber>006-B1</PartNumber><Version>".data
      ("</Version></UpdateFile><App><StoreId>g1</StoreId>" ++
       "<Version>7</Version></App></X>").data
      "5".data "30".data
      (by decide) (by decide) (by decide) (by decide) (by decide)
      (by decide) (by decide) (by decide)
      "g1" 9 xmlC8 1
      "<StoreId>g1</StoreId>".data "</App></X>".data "7".data
      (by decide) (by decide) (by decide) (by decide) (by decide)
      (by decide)
      [] [] (by decide) (by decide)⟩

end GSL
